import Mathlib

/-!
Verification of the AR activation feature of `model-viewer`
(`src/packages/model-viewer/src/features/ar.ts`).

The development shallowly embeds the two intent serializers
(`IOSIntentParameters.toURL`, `AndroidIntentParameters.toURL`,
`IOSIntent.toURL`, `AndroidIntent.toURL`), the AR mode selection loop
(`$selectARMode`), and the Scene Viewer fallback listener armed by
`$openSceneViewer`.  JavaScript strings are Lean `String`s; the WHATWG
`URL` builtin is modelled by a record of its components restricted to
the `scheme://host/path?query#hash` shapes the feature manipulates,
and `encodeURIComponent` is modelled for ASCII input.
-/

namespace ArFeature

/-- Model of JavaScript `Array.prototype.join(sep)`. -/
def joinSep (sep : String) : List String → String
  | [] => ""
  | [x] => x
  | x :: y :: t => x ++ sep ++ joinSep sep (y :: t)

/-- Hexadecimal digits, uppercase, as `encodeURIComponent` emits them. -/
def hexDigits : List Char :=
  ['0', '1', '2', '3', '4', '5', '6', '7', '8', '9', 'A', 'B', 'C', 'D', 'E', 'F']

/-- The hexadecimal digit of a value, taken modulo 16. -/
def hexDigit (n : Nat) : Char := hexDigits.getD (n % 16) '0'

/-- Characters `encodeURIComponent` leaves unescaped:
ASCII alphanumerics and `- _ . ! ~ * ' ( )`. -/
def isUnescapedChar (c : Char) : Bool :=
  c.isAlphanum ||
  c ∈ ['-', '_', '.', '!', '~', '*', Char.ofNat 39, '(', ')']

/-- Percent-encoding of one ASCII character. -/
def encodeChar (c : Char) : List Char :=
  if isUnescapedChar c then [c]
  else ['%', hexDigit (c.toNat / 16), hexDigit c.toNat]

/-- Model of the JavaScript builtin `encodeURIComponent`, faithful for
ASCII input (every serialized value in the claims is ASCII). -/
def encodeURIComponent (s : String) : String :=
  ⟨(s.toList.map encodeChar).flatten⟩

/-- Model of the WHATWG `URL` builtin restricted to the component shapes
the AR feature reads and writes: `scheme` is stored without the trailing
colon (so `url.protocol` is `scheme ++ ":"`), `query` without the leading
`?`, and `hash` is the fragment without the leading `#`. -/
structure URL where
  scheme : String
  host : String
  path : String
  query : String
  hash : String
deriving DecidableEq, Repr

/-- The `?`-prefixed search string of a URL, empty when the query is. -/
def querySuffix (q : String) : String := if q = "" then "" else "?" ++ q

/-- The `#`-prefixed fragment string of a URL, empty when the hash is. -/
def hashSuffix (h : String) : String := if h = "" then "" else "#" ++ h

/-- Model of `URL.prototype.toString` for the component model. -/
def URL.toStr (u : URL) : String :=
  u.scheme ++ "://" ++ u.host ++ u.path ++ querySuffix u.query ++
    hashSuffix u.hash

/-- String prefix test on the character lists (JavaScript
`String.prototype.startsWith`). -/
def startsWithStr (s p : String) : Bool := p.toList.isPrefixOf s.toList

/-- Model of the `url.hash = s` setter: the fragment becomes `s` with a
leading `#` stripped. -/
def URL.setHash (u : URL) (s : String) : URL :=
  { u with hash := if startsWithStr s "#" then (⟨s.toList.drop 1⟩ : String) else s }

/-- Model of `url.searchParams.toString()` for queries already in
canonical `a=b&c=d` form (the only shapes the feature produces). -/
def URL.searchParamsStr (u : URL) : String := u.query

/-- A JavaScript value as it can appear among `Object.entries(this)` in
the serializers: `undefined`, a string, a boolean, a `URL` object, or a
function (the `toURL` arrow-function own-property). -/
inductive JSVal where
  | undef : JSVal
  | str : String → JSVal
  | bool : Bool → JSVal
  | url : URL → JSVal
  | func : JSVal
deriving DecidableEq, Repr

/-- JavaScript string coercion `value.toString()` of the modelled values
(`Boolean.prototype.toString` yields `"true"`/`"false"`). -/
def JSVal.toStr : JSVal → String
  | .undef => "undefined"
  | .str s => s
  | .bool b => if b then "true" else "false"
  | .url u => u.toStr
  | .func => "function"

/-- The filter of the serializers:
`value !== undefined && typeof(value) !== "function" && value.toString()
&& value.toString().length > 0`. -/
def passFilter (v : JSVal) : Bool :=
  v ≠ JSVal.undef && v ≠ JSVal.func && v.toStr ≠ ""

/-- The key remapping `mapKeys` shared by both parameter serializers:
`title → checkoutTitle`, `resizable → allowsContentScaling`,
`link → canonicalWebPageURL`, all other keys pass through. -/
def mapKey (k : String) : String :=
  if k = "title" then "checkoutTitle"
  else if k = "resizable" then "allowsContentScaling"
  else if k = "link" then "canonicalWebPageURL"
  else k

/-- One `key=value` component of a parameter serializer:
`(mapKeys[key] || key.toString()) + "=" + encodeURIComponent(value.toString())`. -/
def renderEntry (kv : String × JSVal) : String :=
  mapKey kv.1 ++ "=" ++ encodeURIComponent kv.2.toStr

/-- The `ApplePayButtonType` enumeration of `ar.ts`. -/
inductive ApplePayButtonType where
  | plain | pay | buy | checkOut | book | donate | subscribe
deriving DecidableEq, Repr

/-- The string value of each `ApplePayButtonType` member. -/
def ApplePayButtonType.toStr : ApplePayButtonType → String
  | .plain => "plain"
  | .pay => "pay"
  | .buy => "buy"
  | .checkOut => "check-out"
  | .book => "book"
  | .donate => "donate"
  | .subscribe => "subscribe"

/-- The `AppleCustomBannerHeight` enumeration of `ar.ts`. -/
inductive AppleCustomBannerHeight where
  | small | medium | large
deriving DecidableEq, Repr

/-- The string value of each `AppleCustomBannerHeight` member. -/
def AppleCustomBannerHeight.toStr : AppleCustomBannerHeight → String
  | .small => "small"
  | .medium => "medium"
  | .large => "large"

/-- The fields of class `IOSIntentParameters`; `Option.none` models an
optional constructor argument left `undefined`. -/
structure IOSIntentParameters where
  title : String
  checkoutSubtitle : String
  price : String
  resizable : Option Bool
  link : Option URL
  applePayButtonType : Option ApplePayButtonType
  callToAction : Option String
  custom : Option String
  customHeight : Option AppleCustomBannerHeight
deriving DecidableEq, Repr

/-- An optional value as a `JSVal`, through a coercion of the payload. -/
def optVal {α : Type} (f : α → JSVal) : Option α → JSVal
  | none => JSVal.undef
  | some a => f a

/-- `Object.entries(this)` for an `IOSIntentParameters` instance: the
constructor parameter properties in declaration order, then the `toURL`
arrow-function own-property. -/
def IOSIntentParameters.entries (p : IOSIntentParameters) : List (String × JSVal) :=
  [("title", JSVal.str p.title),
   ("checkoutSubtitle", JSVal.str p.checkoutSubtitle),
   ("price", JSVal.str p.price),
   ("resizable", optVal JSVal.bool p.resizable),
   ("link", optVal JSVal.url p.link),
   ("applePayButtonType", optVal (fun t => JSVal.str t.toStr) p.applePayButtonType),
   ("callToAction", optVal JSVal.str p.callToAction),
   ("custom", optVal JSVal.str p.custom),
   ("customHeight", optVal (fun h => JSVal.str h.toStr) p.customHeight),
   ("toURL", JSVal.func)]

/-- The filtered, mapped components of `IOSIntentParameters.toURL`. -/
def IOSIntentParameters.components (p : IOSIntentParameters) : List String :=
  (p.entries.filter fun kv => passFilter kv.2).map renderEntry

/-- `IOSIntentParameters.toURL` of `ar.ts`: filter the entries, remap
keys, percent-encode values, join with `&`. -/
def IOSIntentParameters.toURL (p : IOSIntentParameters) : String :=
  joinSep "&" p.components

/-- The `console.warn` guard at the top of `IOSIntentParameters.toURL`:
`!this.applePayButtonType && !this.callToAction` (an unset button type
and an unset or empty call-to-action are falsy). -/
def IOSIntentParameters.warnsMissingButton (p : IOSIntentParameters) : Bool :=
  (match p.applePayButtonType with
   | none => true
   | some _ => false) &&
  (match p.callToAction with
   | none => true
   | some s => s = "")

/-- The fields of class `AndroidIntentParameters`.  The `link` field is
`URL`-typed in the source but only ever consumed through its string
coercion and reassigned from a resolved `URL`; it is modelled by the
string it coerces to. -/
structure AndroidIntentParameters where
  title : String
  fallbackURL : Option String
  resizable : Option Bool
  link : Option String
  sound : Option String
deriving DecidableEq, Repr

/-- Model of `new URL(ref, base).toString()` for the shapes the feature
uses: an absolute `http(s)` reference is returned unchanged, a relative
reference replaces everything after the last `/` of the base. -/
def resolveURL (ref base : String) : String :=
  if startsWithStr ref "http://" || startsWithStr ref "https://" then ref
  else (⟨(base.toList.reverse.dropWhile (· ≠ '/')).reverse⟩ : String) ++ ref

/-- Substring containment on the character lists of two strings. -/
def containsSub (hay needle : List Char) : Bool :=
  match hay with
  | [] => needle.isEmpty
  | _ :: t => needle.isPrefixOf hay || containsSub t needle

/-- JavaScript `String.prototype.includes`. -/
def strIncludes (s sub : String) : Bool := containsSub s.toList sub.toList

/-- The in-place rewriting of `this.link` at the top of
`AndroidIntentParameters.toURL`: when `link` is truthy and does not
contain both `"http://"` and `"https://"` as substrings, it is replaced
by its resolution against the current page location. -/
def rewriteLink (location : String) : Option String → Option String
  | none => none
  | some l =>
    if l ≠ "" && (!strIncludes l "http://" || !strIncludes l "https://") then
      some (resolveURL l location)
    else some l

/-- The analogous in-place rewriting of `this.sound`. -/
def rewriteSound (location : String) : Option String → Option String
  | none => none
  | some s =>
    if s ≠ "" && (!strIncludes s "http://" || !strIncludes s "https://") then
      some (resolveURL s location)
    else some s

/-- The parameter object as mutated by the first half of
`AndroidIntentParameters.toURL` before serialization. -/
def AndroidIntentParameters.resolve (p : AndroidIntentParameters)
    (location : String) : AndroidIntentParameters :=
  { p with
    link := rewriteLink location p.link,
    sound := rewriteSound location p.sound }

/-- `Object.entries(this)` for an `AndroidIntentParameters` instance. -/
def AndroidIntentParameters.entries (p : AndroidIntentParameters) :
    List (String × JSVal) :=
  [("title", JSVal.str p.title),
   ("fallbackURL", optVal JSVal.str p.fallbackURL),
   ("resizable", optVal JSVal.bool p.resizable),
   ("link", optVal JSVal.str p.link),
   ("sound", optVal JSVal.str p.sound),
   ("toURL", JSVal.func)]

/-- The filtered, mapped components serialized by
`AndroidIntentParameters.toURL` after the link/sound rewriting. -/
def AndroidIntentParameters.components (p : AndroidIntentParameters)
    (location : String) : List String :=
  (((p.resolve location).entries).filter fun kv => passFilter kv.2).map renderEntry

/-- `AndroidIntentParameters.toURL` of `ar.ts`: rewrite `link` and
`sound` in place, then filter, remap, encode and join the entries.  The
returned pair is the serialized string together with the mutated
object. -/
def AndroidIntentParameters.toURL (p : AndroidIntentParameters)
    (location : String) : String × AndroidIntentParameters :=
  (joinSep "&" (p.components location), p.resolve location)

/-- The fields of class `IOSIntent`. -/
structure IOSIntent where
  file : URL
  parameters : IOSIntentParameters
deriving DecidableEq, Repr

/-- `IOSIntent.toURL` of `ar.ts`: `const url = this.file` aliases the
stored `URL` object, so assigning `url.hash` mutates the intent; the
returned pair is the produced string together with the mutated
intent. -/
def IOSIntent.toURL (i : IOSIntent) : String × IOSIntent :=
  let file := i.file.setHash i.parameters.toURL
  (file.toStr, ⟨file, i.parameters⟩)

/-- The fields of class `AndroidIntent`. -/
structure AndroidIntent where
  file : URL
  parameters : AndroidIntentParameters
deriving DecidableEq, Repr

/-- The `params` object literal of `AndroidIntent.toURL`, in literal key
order; only `title` is percent-encoded, the other values are used raw. -/
def AndroidIntent.queryEntries (a : AndroidIntent) : List (String × JSVal) :=
  [("file", JSVal.url a.file),
   ("mode", JSVal.str "ar_only"),
   ("link", optVal JSVal.str a.parameters.link),
   ("title", JSVal.str (encodeURIComponent a.parameters.title)),
   ("resizable", optVal JSVal.bool a.parameters.resizable)]

/-- A raw `key=value` component of `AndroidIntent.toURL`
(`key.toString() + "=" + value`, without further encoding). -/
def renderRaw (kv : String × JSVal) : String := kv.1 ++ "=" ++ kv.2.toStr

/-- The query string of `AndroidIntent.toURL`: the file URL's own search
string joined in front of the filtered `params` entries. -/
def AndroidIntent.paramString (a : AndroidIntent) : String :=
  joinSep "&"
    (a.file.searchParamsStr ::
      (a.queryEntries.filter fun kv => passFilter kv.2).map renderRaw)

/-- The `hashParams` object literal of `AndroidIntent.toURL`:
`S.browser_fallback_url` is `undefined` when the fallback URL is falsy,
otherwise the percent-encoded fallback URL. -/
def AndroidIntent.hashEntries (a : AndroidIntent) : List (String × JSVal) :=
  [("scheme", JSVal.str a.file.scheme),
   ("package", JSVal.str "com.google.ar.core"),
   ("action", JSVal.str "android.intent.action.VIEW"),
   ("S.browser_fallback_url",
     match a.parameters.fallbackURL with
     | none => JSVal.undef
     | some s => if s = "" then JSVal.undef else JSVal.str (encodeURIComponent s))]

/-- The `Intent;...;end;` fragment of `AndroidIntent.toURL`. -/
def AndroidIntent.hashString (a : AndroidIntent) : String :=
  "Intent;" ++
    joinSep ";" ((a.hashEntries.filter fun kv => passFilter kv.2).map renderRaw) ++
    ";end;"

/-- `AndroidIntent.toURL` of `ar.ts`:
`intent://arvr.google.com/scene-viewer/1.0?<params>#<hash>`. -/
def AndroidIntent.toURL (a : AndroidIntent) : String :=
  "intent://arvr.google.com/scene-viewer/1.0" ++ "?" ++ a.paramString
    ++ "#" ++ a.hashString

/-- The `ARMode` enumeration of `ar.ts`. -/
inductive ARMode where
  | quickLook | sceneViewer | webxr | none
deriving DecidableEq, Repr

/-- The platform context read by `$selectARMode`: the static candidate
flags, the session-scoped blocked flags, the resolved value of the
asynchronous `supportsPresentation()` probe, and whether `iosSrc` is
set. -/
structure ARContext where
  isWebXRARCandidate : Bool
  isWebXRBlocked : Bool
  supportsPresentation : Bool
  isSceneViewerCandidate : Bool
  isSceneViewerBlocked : Bool
  iosSrcPresent : Bool
  isARQuickLookCandidate : Bool
deriving DecidableEq, Repr

/-- The outcome of a `$selectARMode` run: the mode stored in
`this[$arMode]`, the number of calls to the asynchronous
`supportsPresentation()` probe, and the number of times the quick-look
gating condition (`!!this.iosSrc && IS_AR_QUICKLOOK_CANDIDATE`) was
evaluated. -/
structure SelectResult where
  mode : ARMode
  probeCalls : Nat
  quickLookChecks : Nat
deriving DecidableEq, Repr

/-- The `for (const value of arModes)` loop of `$selectARMode`, with the
short-circuit evaluation order of its `if/else if` chain: the probe runs
only after `value === 'webxr' && IS_WEBXR_AR_CANDIDATE && !isWebXRBlocked`,
and the quick-look capability flags are read only on a `quick-look`
entry. -/
def selectLoop (ctx : ARContext) : List ARMode → SelectResult
  | [] => ⟨ARMode.none, 0, 0⟩
  | v :: rest =>
    if v = ARMode.webxr then
      if ctx.isWebXRARCandidate && !ctx.isWebXRBlocked then
        if ctx.supportsPresentation then ⟨ARMode.webxr, 1, 0⟩
        else
          let r := selectLoop ctx rest
          ⟨r.mode, r.probeCalls + 1, r.quickLookChecks⟩
      else selectLoop ctx rest
    else if v = ARMode.sceneViewer then
      if ctx.isSceneViewerCandidate && !ctx.isSceneViewerBlocked then
        ⟨ARMode.sceneViewer, 0, 0⟩
      else selectLoop ctx rest
    else if v = ARMode.quickLook then
      if ctx.iosSrcPresent && ctx.isARQuickLookCandidate then
        ⟨ARMode.quickLook, 0, 1⟩
      else
        let r := selectLoop ctx rest
        ⟨r.mode, r.probeCalls, r.quickLookChecks + 1⟩
    else selectLoop ctx rest

/-- `$selectARMode` of `ar.ts`: the mode is reset to `none` and the
preference loop runs only when the `ar` flag is set. -/
def selectARMode (ar : Bool) (ctx : ARContext) (modes : List ARMode) :
    SelectResult :=
  if ar then selectLoop ctx modes else ⟨ARMode.none, 0, 0⟩

/-- The gating condition of each mode in `$selectARMode`, as a predicate
of the context alone. -/
def gate (ctx : ARContext) : ARMode → Bool
  | ARMode.webxr =>
      ctx.isWebXRARCandidate && !ctx.isWebXRBlocked && ctx.supportsPresentation
  | ARMode.sceneViewer =>
      ctx.isSceneViewerCandidate && !ctx.isSceneViewerBlocked
  | ARMode.quickLook => ctx.iosSrcPresent && ctx.isARQuickLookCandidate
  | ARMode.none => false

/-- The sigil constant `noArViewerSigil` of `ar.ts` (compared against
`self.location.hash`, which carries the leading `#`). -/
def noArViewerSigil : String := "#model-viewer-no-ar-fallback"

/-- The observable state touched by the Scene Viewer fallback mechanism:
the session-scoped `isSceneViewerBlocked` flag, whether the one-shot
`hashchange` listener is currently armed, and counters for
`history.back()` calls and `$selectARMode` re-runs. -/
structure SceneViewerState where
  isSceneViewerBlocked : Bool
  listenerArmed : Bool
  historyBackCalls : Nat
  selectorRuns : Nat
deriving DecidableEq, Repr

/-- The effect of `$openSceneViewer` on the fallback state: it arms the
one-shot `hashchange` listener, registered with the `once: true`
option. -/
def openSceneViewerArm (s : SceneViewerState) : SceneViewerState :=
  { s with listenerArmed := true }

/-- A `hashchange` event observed while `self.location.hash = hash`:
with `once: true` the listener is removed before it runs; the handler
`undoHashChange` fires its effects only when the hash equals the sigil. -/
def hashchangeEvent (hash : String) (s : SceneViewerState) : SceneViewerState :=
  if s.listenerArmed then
    let s1 := { s with listenerArmed := false }
    if hash = noArViewerSigil then
      { s1 with
        isSceneViewerBlocked := true,
        historyBackCalls := s1.historyBackCalls + 1,
        selectorRuns := s1.selectorRuns + 1 }
    else s1
  else s

/-! Generic URL-string parsing, used to state what a consumer observes
when it parses the produced intent URIs (as the repository's own test
does with `new URL(...)` and `URLSearchParams`). -/

/-- Drop everything up to and including the first occurrence of `c`. -/
def dropThroughCh (c : Char) : List Char → List Char
  | [] => []
  | x :: xs => if x = c then xs else dropThroughCh c xs

/-- Take everything strictly before the first occurrence of `c`. -/
def takeUntilCh (c : Char) : List Char → List Char
  | [] => []
  | x :: xs => if x = c then [] else x :: takeUntilCh c xs

/-- Split at every occurrence of `c` (the separators are consumed). -/
def splitOnCh (c : Char) : List Char → List (List Char)
  | [] => [[]]
  | x :: xs =>
    let r := splitOnCh c xs
    if x = c then [] :: r else (x :: r.headD []) :: r.tail

/-- The query portion of a URL string: what stands after the first `?`
and before the following `#`. -/
def extractQuery (s : String) : String :=
  ⟨takeUntilCh '#' (dropThroughCh '?' s.toList)⟩

/-- Look up the first `key=value` pair of a query string with the given
key, as `URLSearchParams.get` does. -/
def lookupParam (key q : String) : Option String :=
  ((splitOnCh '&' q.toList).find? fun comp =>
      takeUntilCh '=' comp = key.toList).map
    fun comp => (⟨dropThroughCh '=' comp⟩ : String)

/-- The `&`-separated components of a serialized parameter string. -/
def splitAmp (s : String) : List String :=
  (splitOnCh '&' s.toList).map fun l => (⟨l⟩ : String)

/-! Supporting lemmas. -/

theorem strToList_append (a b : String) :
    (a ++ b).toList = a.toList ++ b.toList := String.data_append a b

theorem joinSep_cons_of_ne_nil (sep x : String) {l : List String} (h : l ≠ []) :
    joinSep sep (x :: l) = x ++ sep ++ joinSep sep l := by
  cases l with
  | nil => exact absurd rfl h
  | cons y t => rfl

theorem joinSep_cons_exists (sep x : String) (l : List String) :
    ∃ s, joinSep sep (x :: l) = x ++ s := by
  cases l with
  | nil => exact ⟨"", (String.append_empty x).symm⟩
  | cons y t =>
    exact ⟨sep ++ joinSep sep (y :: t), by
      rw [joinSep_cons_of_ne_nil sep x (by simp), String.append_assoc]⟩

theorem mem_toList_joinSep {d : Char} {sep : String} {l : List String}
    (h : d ∈ (joinSep sep l).toList) :
    d ∈ sep.toList ∨ ∃ x ∈ l, d ∈ x.toList := by
  induction l with
  | nil => simp [joinSep] at h
  | cons x t ih =>
    cases t with
    | nil =>
      simp only [joinSep] at h
      exact Or.inr ⟨x, by simp, h⟩
    | cons y u =>
      rw [joinSep_cons_of_ne_nil sep x (by simp), strToList_append,
        strToList_append] at h
      rcases List.mem_append.1 h with h1 | h2
      · rcases List.mem_append.1 h1 with h3 | h4
        · exact Or.inr ⟨x, by simp, h3⟩
        · exact Or.inl h4
      · rcases ih h2 with h5 | ⟨z, hz, hdz⟩
        · exact Or.inl h5
        · exact Or.inr ⟨z, by simp [hz], hdz⟩

theorem dropThroughCh_append {c : Char} {l1 : List Char} (l2 : List Char)
    (h : c ∉ l1) : dropThroughCh c (l1 ++ l2) = dropThroughCh c l2 := by
  induction l1 with
  | nil => rfl
  | cons x t ih =>
    have hx : x ≠ c := fun he => h (he ▸ List.mem_cons_self x t)
    simp only [List.cons_append, dropThroughCh, if_neg hx]
    exact ih fun hm => h (List.mem_cons_of_mem x hm)

theorem dropThroughCh_cons_self (c : Char) (l : List Char) :
    dropThroughCh c (c :: l) = l := by
  simp [dropThroughCh]

theorem takeUntilCh_append {c : Char} {l1 : List Char} (l2 : List Char)
    (h : c ∉ l1) : takeUntilCh c (l1 ++ c :: l2) = l1 := by
  induction l1 with
  | nil => simp [takeUntilCh]
  | cons x t ih =>
    have hx : x ≠ c := fun he => h (he ▸ List.mem_cons_self x t)
    simp only [List.cons_append, takeUntilCh, if_neg hx]
    exact congrArg (x :: ·) (ih fun hm => h (List.mem_cons_of_mem x hm))

theorem splitOnCh_ne_nil (c : Char) (l : List Char) : splitOnCh c l ≠ [] := by
  cases l with
  | nil => simp [splitOnCh]
  | cons x t =>
    by_cases hx : x = c <;> simp [splitOnCh, hx]

theorem splitOnCh_append {c : Char} {l1 : List Char} (l2 : List Char)
    (h : c ∉ l1) : splitOnCh c (l1 ++ c :: l2) = l1 :: splitOnCh c l2 := by
  induction l1 with
  | nil => simp [splitOnCh]
  | cons x t ih =>
    have hx : x ≠ c := fun he => h (he ▸ List.mem_cons_self x t)
    have ht := ih fun hm => h (List.mem_cons_of_mem x hm)
    simp only [List.cons_append, splitOnCh, if_neg hx, List.append_eq, ht,
      List.headD_cons, List.tail_cons]

theorem hexDigit_mem (n : Nat) : hexDigit n ∈ hexDigits := by
  have hb : ∀ k, k < 16 → hexDigits.getD k '0' ∈ hexDigits := by decide
  exact hb (n % 16) (Nat.mod_lt n (by norm_num))

theorem not_mem_encode {d : Char} (hu : isUnescapedChar d = false)
    (hh : d ∉ hexDigits) (hp : d ≠ '%') (s : String) :
    d ∉ (encodeURIComponent s).toList := by
  intro hmem
  have : d ∈ (s.toList.map encodeChar).flatten := hmem
  rcases List.mem_flatten.1 this with ⟨l, hl, hdl⟩
  rcases List.mem_map.1 hl with ⟨ch, _, rfl⟩
  unfold encodeChar at hdl
  by_cases hch : isUnescapedChar ch = true
  · rw [if_pos hch] at hdl
    have hd : d = ch := List.mem_singleton.1 hdl
    rw [hd, hch] at hu
    exact absurd hu (by simp)
  · rw [if_neg hch] at hdl
    simp only [List.mem_cons, List.not_mem_nil, or_false] at hdl
    rcases hdl with h1 | h2 | h3
    · exact hp h1
    · exact hh (h2 ▸ hexDigit_mem _)
    · exact hh (h3 ▸ hexDigit_mem _)

theorem strMk_toList (s : String) : (⟨s.toList⟩ : String) = s := rfl

theorem strEmpty_append (s : String) : "" ++ s = s :=
  String.ext (by rw [String.data_append]; rfl)

theorem splitOnCh_of_not_mem {c : Char} {l : List Char} (h : c ∉ l) :
    splitOnCh c l = [l] := by
  induction l with
  | nil => rfl
  | cons x t ih =>
    have hx : x ≠ c := fun he => h (he ▸ List.mem_cons_self x t)
    have ht := ih fun hm => h (List.mem_cons_of_mem x hm)
    simp [splitOnCh, if_neg hx, ht]

theorem splitAmp_joinSep {l : List String} (hl : l ≠ [])
    (h : ∀ x ∈ l, '&' ∉ x.toList) : splitAmp (joinSep "&" l) = l := by
  induction l with
  | nil => exact absurd rfl hl
  | cons x t ih =>
    cases t with
    | nil =>
      show splitAmp x = [x]
      unfold splitAmp
      rw [splitOnCh_of_not_mem (h x (by simp))]
      simp [strMk_toList]
    | cons y u =>
      rw [joinSep_cons_of_ne_nil "&" x (by simp)]
      unfold splitAmp
      rw [strToList_append, strToList_append]
      have hx : '&' ∉ x.toList := h x (by simp)
      have : x.toList ++ ("&" : String).toList ++ (joinSep "&" (y :: u)).toList =
          x.toList ++ '&' :: (joinSep "&" (y :: u)).toList := by
        rw [List.append_assoc]; rfl
      rw [this, splitOnCh_append _ hx]
      have iht := ih (by simp) fun z hz => h z (List.mem_cons_of_mem x hz)
      unfold splitAmp at iht
      simp only [List.map_cons, strMk_toList, iht]

theorem renderEntry_no_amp (kv : String × JSVal)
    (hk : '&' ∉ (mapKey kv.1).toList) : '&' ∉ (renderEntry kv).toList := by
  intro hmem
  unfold renderEntry at hmem
  rw [strToList_append, strToList_append] at hmem
  rcases List.mem_append.1 hmem with h1 | h2
  · rcases List.mem_append.1 h1 with h3 | h4
    · exact hk h3
    · exact absurd h4 (by decide)
  · exact not_mem_encode (by decide) (by decide) (by decide) _ h2

theorem components_characterize (l : List (String × JSVal))
    (hkeys : ∀ kv ∈ l, '&' ∉ (mapKey kv.1).toList) :
    ∀ c ∈ splitAmp (joinSep "&" ((l.filter fun kv => passFilter kv.2).map renderEntry)),
      c ≠ "" → ∃ kv ∈ l, passFilter kv.2 = true ∧ c = renderEntry kv := by
  intro c hc hne
  by_cases hcomps : ((l.filter fun kv => passFilter kv.2).map renderEntry) = []
  · rw [hcomps] at hc
    have : c = "" := by simpa [splitAmp, joinSep, splitOnCh] using hc
    exact absurd this hne
  · rw [splitAmp_joinSep hcomps ?clean] at hc
    case clean =>
      intro x hx
      rcases List.mem_map.1 hx with ⟨kv, hkv, rfl⟩
      exact renderEntry_no_amp kv (hkeys kv (List.mem_of_mem_filter hkv))
    rcases List.mem_map.1 hc with ⟨kv, hkv, rfl⟩
    exact ⟨kv, List.mem_of_mem_filter hkv,
      by simpa using (List.mem_filter.1 hkv).2, rfl⟩

theorem URL.toStr_ne_empty (u : URL) : u.toStr ≠ "" := by
  intro he
  have hl : (u.toStr).toList = [] := by rw [he]; rfl
  unfold URL.toStr at hl
  rw [strToList_append, strToList_append, strToList_append,
    strToList_append, strToList_append] at hl
  rcases List.append_eq_nil.1 (List.append_eq_nil.1
    (List.append_eq_nil.1 (List.append_eq_nil.1
      (List.append_eq_nil.1 hl).1).1).1).1 with ⟨_, hsep⟩
  exact absurd hsep (by decide)

theorem URL.mem_toStr_no_hash {d : Char} {u : URL} (hh : u.hash = "")
    (hd : d ∈ u.toStr.toList) :
    d ∈ u.scheme.toList ∨ d ∈ ("://" : String).toList ∨ d ∈ u.host.toList ∨
      d ∈ u.path.toList ∨ d ∈ ("?" : String).toList ∨ d ∈ u.query.toList := by
  unfold URL.toStr at hd
  rw [hh, show hashSuffix "" = "" from rfl] at hd
  by_cases hq : u.query = ""
  · rw [hq, show querySuffix "" = "" from rfl] at hd
    rw [strToList_append, strToList_append, strToList_append,
      strToList_append, strToList_append,
      show ("" : String).toList = ([] : List Char) from rfl,
      List.append_nil, List.append_nil] at hd
    simp only [List.mem_append] at hd
    rcases hd with ((h1 | h2) | h3) | h4
    · exact Or.inl h1
    · exact Or.inr (Or.inl h2)
    · exact Or.inr (Or.inr (Or.inl h3))
    · exact Or.inr (Or.inr (Or.inr (Or.inl h4)))
  · rw [show querySuffix u.query = "?" ++ u.query from if_neg hq] at hd
    rw [strToList_append, strToList_append, strToList_append,
      strToList_append, strToList_append, strToList_append,
      show ("" : String).toList = ([] : List Char) from rfl,
      List.append_nil] at hd
    simp only [List.mem_append] at hd
    rcases hd with (((h1 | h2) | h3) | h4) | h5 | h6
    · exact Or.inl h1
    · exact Or.inr (Or.inl h2)
    · exact Or.inr (Or.inr (Or.inl h3))
    · exact Or.inr (Or.inr (Or.inr (Or.inl h4)))
    · exact Or.inr (Or.inr (Or.inr (Or.inr (Or.inl h5))))
    · exact Or.inr (Or.inr (Or.inr (Or.inr (Or.inr h6))))

/-! Concrete instances used by the claim theorems, mirroring the inputs
of the repository's own test suite (`ar-spec.ts`). -/

/-- The fixed-scale iOS parameters of the test `sets hash for fixed
scale`: `new IOSIntentParameters("title", "subtitle", "price", false)`. -/
def fixedScaleParams : IOSIntentParameters :=
  ⟨"title", "subtitle", "price", some false, none, none, none, none, none⟩

/-- The parameters of the test `keeps original hash too`: the same with
the custom banner id `"path-to-banner.html"`. -/
def bannerParams : IOSIntentParameters :=
  { fixedScaleParams with custom := some "path-to-banner.html" }

/-- The Android intent of the test `sets sound and link to absolute
URLs`: parameters `("bar", undefined, undefined, "foo.html", "bar.ogg")`
on the file URL `https://example.com/model.gltf`. -/
def relativeRefsIntent : AndroidIntent :=
  ⟨⟨"https", "example.com", "/model.gltf", "", ""⟩,
   ⟨"bar", none, none, some "foo.html", some "bar.ogg"⟩⟩

/-- The Android intent of the test `preserves query parameters in model
URLs`: file URL `https://example.com/model.gltf?token=foo`. -/
def tokenIntent : AndroidIntent :=
  ⟨⟨"https", "example.com", "/model.gltf", "token=foo", ""⟩,
   ⟨"Title", some "https://example.com/", none, none, none⟩⟩

/-- An iOS intent over `https://example.com/model.usdz` with the
fixed-scale parameters. -/
def usdzIntent : IOSIntent :=
  ⟨⟨"https", "example.com", "/model.usdz", "", ""⟩, fixedScaleParams⟩

/-- C1: the claim says `resizable = false` serializes to
`allowsContentScaling=0`.  The code serializes the boolean through its
JavaScript string coercion, producing `allowsContentScaling=false`, so
the fragment never contains `allowsContentScaling=0`; the repository's
own test (`expect(url.hash).to.contains('allowsContentScaling=0')`)
agrees with the claim, hence the code is the defect.  The `custom`
banner id does appear as `custom=<value>` alongside the (wrongly
rendered) `allowsContentScaling` pair. -/
theorem c1_resizable_false_renders_false_not_zero :
    fixedScaleParams.toURL =
      "checkoutTitle=title&checkoutSubtitle=subtitle&price=price&allowsContentScaling=false" ∧
    containsSub fixedScaleParams.toURL.toList "allowsContentScaling=0".toList = false ∧
    containsSub fixedScaleParams.toURL.toList "allowsContentScaling=false".toList = true ∧
    containsSub bannerParams.toURL.toList "custom=path-to-banner.html".toList = true ∧
    containsSub bannerParams.toURL.toList "allowsContentScaling=".toList = true ∧
    containsSub bannerParams.toURL.toList "allowsContentScaling=0".toList = false :=
  ⟨rfl, by decide, by decide, by decide, by decide, by decide⟩

/-- C3: the claim says `AndroidIntent.toURL()` rewrites a relative
`link` (`foo.html`) and relative `sound` (`bar.ogg`) to absolute URLs.
The code's `AndroidIntent.toURL` never invokes
`AndroidIntentParameters.toURL` (where the rewriting lives): it emits
the `link` value verbatim and omits `sound` entirely, while the
repository's own test (`sets sound and link to absolute URLs`) expects
both absolute.  The last conjunct shows the uninvoked parameter
serializer would indeed resolve both references against the page
location. -/
theorem c3_relative_refs_not_resolved :
    containsSub relativeRefsIntent.toURL.toList "link=foo.html".toList = true ∧
    containsSub relativeRefsIntent.toURL.toList "sound=".toList = false ∧
    containsSub relativeRefsIntent.toURL.toList "link=https".toList = false ∧
    containsSub relativeRefsIntent.toURL.toList "link=http://".toList = false ∧
    (relativeRefsIntent.parameters.toURL "https://host.test/page/index.html").1 =
      "checkoutTitle=bar&canonicalWebPageURL=https%3A%2F%2Fhost.test%2Fpage%2Ffoo.html&sound=https%3A%2F%2Fhost.test%2Fpage%2Fbar.ogg" :=
  ⟨by decide, by decide, by decide, by decide, by decide⟩

/-- C6: with the `ar` flag unset, `$selectARMode` stores mode `none`
and never calls the asynchronous `supportsPresentation()` probe,
whatever the preference list and platform context. -/
theorem c6_ar_disabled_selects_none_without_probe
    (ctx : ARContext) (modes : List ARMode) :
    (selectARMode false ctx modes).mode = ARMode.none ∧
    (selectARMode false ctx modes).probeCalls = 0 :=
  ⟨rfl, rfl⟩

/-- C7: after a Scene Viewer activation arms the one-shot `hashchange`
listener, a hash change back to the sigil blocks Scene Viewer, calls
`history.back()` exactly once and re-runs the mode selector exactly
once; any second hash change leaves the state untouched. -/
theorem c7_fallback_listener_is_one_shot (s : SceneViewerState) (h2 : String) :
    ((hashchangeEvent noArViewerSigil (openSceneViewerArm s)).isSceneViewerBlocked = true ∧
     (hashchangeEvent noArViewerSigil (openSceneViewerArm s)).historyBackCalls =
       s.historyBackCalls + 1 ∧
     (hashchangeEvent noArViewerSigil (openSceneViewerArm s)).selectorRuns =
       s.selectorRuns + 1) ∧
    hashchangeEvent h2 (hashchangeEvent noArViewerSigil (openSceneViewerArm s)) =
      hashchangeEvent noArViewerSigil (openSceneViewerArm s) := by
  refine ⟨⟨rfl, rfl, rfl⟩, ?_⟩
  simp [hashchangeEvent, openSceneViewerArm]

/-- C8: an iOS parameter object with neither an Apple-Pay button type
nor a call-to-action still serializes: the `console.warn` guard fires
(exactly a diagnostic), and `IOSIntent.toURL` produces the usual
non-empty URL whose fragment is the filter-map serialization. -/
theorem c8_missing_button_warns_but_serializes
    (p : IOSIntentParameters) (file : URL)
    (h1 : p.applePayButtonType = none) (h2 : p.callToAction = none) :
    p.warnsMissingButton = true ∧
    (IOSIntent.toURL ⟨file, p⟩).1 = (file.setHash p.toURL).toStr ∧
    (IOSIntent.toURL ⟨file, p⟩).1 ≠ "" := by
  refine ⟨?_, rfl, ?_⟩
  · simp [IOSIntentParameters.warnsMissingButton, h1, h2]
  · exact URL.toStr_ne_empty _

/-- Witness for C8 at the parameters of the fixed-scale test (no button
type, no call-to-action) on `https://example.com/model.usdz`. -/
theorem c8_missing_button_warns_but_serializes_witness :
    fixedScaleParams.warnsMissingButton = true ∧
    (IOSIntent.toURL usdzIntent).1 =
      ((usdzIntent.file).setHash fixedScaleParams.toURL).toStr ∧
    (IOSIntent.toURL usdzIntent).1 ≠ "" :=
  c8_missing_button_warns_but_serializes fixedScaleParams usdzIntent.file rfl rfl

/-- C9 counterexample: intents are not immutable under `toURL`.
`IOSIntent.toURL` aliases `this.file` and assigns its `hash`, so on the
fixed-scale intent (whose file URL has an empty fragment) the stored
file URL differs after the call. -/
theorem c9_intent_mutated_counterexample :
    (IOSIntent.toURL usdzIntent).2 ≠ usdzIntent ∧
    (IOSIntent.toURL usdzIntent).2.file.hash =
      "checkoutTitle=title&checkoutSubtitle=subtitle&price=price&allowsContentScaling=false" ∧
    usdzIntent.file.hash = "" := by
  refine ⟨?_, rfl, rfl⟩
  decide

/-- C9 amended: `IOSIntent.toURL` mutates exactly the stored file URL,
overwriting its fragment with the serialized parameters; the mutation is
idempotent, so repeated `toURL()` calls return the same string and the
same state. -/
theorem c9_amended_mutation_is_idempotent (i : IOSIntent) :
    (IOSIntent.toURL i).2 =
      ⟨i.file.setHash i.parameters.toURL, i.parameters⟩ ∧
    (IOSIntent.toURL (IOSIntent.toURL i).2).1 = (IOSIntent.toURL i).1 ∧
    (IOSIntent.toURL (IOSIntent.toURL i).2).2 = (IOSIntent.toURL i).2 :=
  ⟨rfl, rfl, rfl⟩

theorem selectLoop_mode_eq_find (ctx : ARContext) (modes : List ARMode) :
    (selectLoop ctx modes).mode =
      ((modes.find? fun m => gate ctx m).getD ARMode.none) := by
  induction modes with
  | nil => rfl
  | cons v rest ih =>
    cases v with
    | webxr =>
      by_cases h1 : (ctx.isWebXRARCandidate && !ctx.isWebXRBlocked) = true
      · have h1c := h1
        rw [Bool.and_eq_true] at h1c
        obtain ⟨ha, hb⟩ := h1c
        by_cases h2 : ctx.supportsPresentation = true
        · simp [selectLoop, gate, List.find?_cons, ha, hb, h2, h1]
        · have h2f : ctx.supportsPresentation = false := by
            simpa using h2
          simp [selectLoop, gate, List.find?_cons, ha, hb, h2f, h1, ih]
      · have h1f : (ctx.isWebXRARCandidate && !ctx.isWebXRBlocked) = false := by
          simpa using h1
        simp [selectLoop, gate, List.find?_cons, h1f, ih]
    | sceneViewer =>
      by_cases h1 : (ctx.isSceneViewerCandidate && !ctx.isSceneViewerBlocked) = true
      · simp [selectLoop, gate, List.find?_cons, h1]
      · have h1f : (ctx.isSceneViewerCandidate && !ctx.isSceneViewerBlocked) = false := by
          simpa using h1
        simp [selectLoop, gate, List.find?_cons, h1f, ih]
    | quickLook =>
      by_cases h1 : (ctx.iosSrcPresent && ctx.isARQuickLookCandidate) = true
      · simp [selectLoop, gate, List.find?_cons, h1]
      · have h1f : (ctx.iosSrcPresent && ctx.isARQuickLookCandidate) = false := by
          simpa using h1
        simp [selectLoop, gate, List.find?_cons, h1f, ih]
    | none =>
      simp [selectLoop, gate, List.find?_cons, ih]

theorem select_scene_viewer_without_quicklook_probe (ctx : ARContext)
    (hsv : gate ctx ARMode.sceneViewer = true)
    (hwx : gate ctx ARMode.webxr = false) :
    (selectARMode true ctx
      [ARMode.webxr, ARMode.sceneViewer, ARMode.quickLook]).mode =
        ARMode.sceneViewer ∧
    (selectARMode true ctx
      [ARMode.webxr, ARMode.sceneViewer, ARMode.quickLook]).quickLookChecks = 0 := by
  have hsv2 : (ctx.isSceneViewerCandidate && !ctx.isSceneViewerBlocked) = true := hsv
  by_cases h1 : (ctx.isWebXRARCandidate && !ctx.isWebXRBlocked) = true
  · have h1c := h1
    rw [Bool.and_eq_true] at h1c
    obtain ⟨ha, hb⟩ := h1c
    have h2f : ctx.supportsPresentation = false := by
      by_contra hc
      have h2 : ctx.supportsPresentation = true := by simpa using hc
      simp [gate, ha, hb, h2] at hwx
    simp [selectARMode, selectLoop, ha, hb, h2f, hsv2]
  · have h1f : (ctx.isWebXRARCandidate && !ctx.isWebXRBlocked) = false := by
      simpa using h1
    simp [selectARMode, selectLoop, h1f, hsv2]

/-- C5: mode selection is first-match-wins over the preference list —
the stored mode is that of the first entry whose gating condition holds,
`none` when no gate holds — and with preferences
`[webxr, scene-viewer, quick-look]` in a context where the scene-viewer
gate holds and the webxr gate does not, the selection is `scene-viewer`
and the quick-look gate is never evaluated. -/
theorem c5_first_match_wins :
    (∀ (ctx : ARContext) (modes : List ARMode),
      (selectARMode true ctx modes).mode =
        ((modes.find? fun m => gate ctx m).getD ARMode.none)) ∧
    (∀ ctx : ARContext,
      gate ctx ARMode.sceneViewer = true →
      gate ctx ARMode.webxr = false →
      gate ctx ARMode.quickLook = false →
      (selectARMode true ctx
        [ARMode.webxr, ARMode.sceneViewer, ARMode.quickLook]).mode =
          ARMode.sceneViewer ∧
      (selectARMode true ctx
        [ARMode.webxr, ARMode.sceneViewer, ARMode.quickLook]).quickLookChecks
          = 0) :=
  ⟨fun ctx modes => selectLoop_mode_eq_find ctx modes,
   fun ctx hsv hwx _ =>
    select_scene_viewer_without_quicklook_probe ctx hsv hwx⟩

/-- Witness for C5: a Scene-Viewer-capable, unblocked context that is
not a WebXR candidate and has no `iosSrc`. -/
theorem c5_first_match_wins_witness :
    (selectARMode true ⟨false, false, false, true, false, false, false⟩
      [ARMode.webxr, ARMode.sceneViewer, ARMode.quickLook]).mode =
        ARMode.sceneViewer ∧
    (selectARMode true ⟨false, false, false, true, false, false, false⟩
      [ARMode.webxr, ARMode.sceneViewer, ARMode.quickLook]).quickLookChecks
        = 0 :=
  c5_first_match_wins.2 ⟨false, false, false, true, false, false, false⟩
    (by decide) (by decide) (by decide)

/-- C4: both parameter serializers are filter-maps over the present,
non-empty, non-function fields: every non-empty `&`-separated component
of the serialized string is the rendering of an entry of the object (as
it stands at serialization time) that passes the
undefined/function/empty filter. -/
theorem c4_serializer_is_filter_map (p : IOSIntentParameters)
    (q : AndroidIntentParameters) (location c : String) :
    (c ∈ splitAmp p.toURL → c ≠ "" →
      ∃ kv ∈ p.entries, passFilter kv.2 = true ∧ c = renderEntry kv) ∧
    (c ∈ splitAmp (q.toURL location).1 → c ≠ "" →
      ∃ kv ∈ (q.resolve location).entries,
        passFilter kv.2 = true ∧ c = renderEntry kv) := by
  constructor
  · have hkeys : ∀ kv ∈ p.entries, '&' ∉ (mapKey kv.1).toList := by
      intro kv hkv
      have hk : kv.1 ∈ ["title", "checkoutSubtitle", "price", "resizable",
          "link", "applePayButtonType", "callToAction", "custom",
          "customHeight", "toURL"] := by
        simp only [IOSIntentParameters.entries, List.mem_cons,
          List.not_mem_nil, or_false] at hkv
        rcases hkv with rfl | rfl | rfl | rfl | rfl | rfl | rfl | rfl | rfl | rfl
          <;> simp
      revert hk
      generalize kv.1 = k
      intro hk
      fin_cases hk <;> decide
    exact components_characterize p.entries hkeys c
  · have hkeys : ∀ kv ∈ (q.resolve location).entries,
        '&' ∉ (mapKey kv.1).toList := by
      intro kv hkv
      have hk : kv.1 ∈ ["title", "fallbackURL", "resizable", "link", "sound",
          "toURL"] := by
        simp only [AndroidIntentParameters.entries, List.mem_cons,
          List.not_mem_nil, or_false] at hkv
        rcases hkv with rfl | rfl | rfl | rfl | rfl | rfl <;> simp
      revert hk
      generalize kv.1 = k
      intro hk
      fin_cases hk <;> decide
    exact components_characterize (q.resolve location).entries hkeys c

/-- Witness for C4: the component `checkoutTitle=bar` of both the iOS
parameters `("bar", "s", "p")` and the Android parameters of the
relative-references test resolved against a concrete page location. -/
theorem c4_serializer_is_filter_map_witness :
    (∃ kv ∈ (⟨"bar", "s", "p", none, none, none, none, none,
        none⟩ : IOSIntentParameters).entries,
      passFilter kv.2 = true ∧ "checkoutTitle=bar" = renderEntry kv) ∧
    (∃ kv ∈ (relativeRefsIntent.parameters.resolve
        "https://host.test/page/index.html").entries,
      passFilter kv.2 = true ∧ "checkoutTitle=bar" = renderEntry kv) :=
  ⟨(c4_serializer_is_filter_map
      ⟨"bar", "s", "p", none, none, none, none, none, none⟩
      relativeRefsIntent.parameters "https://host.test/page/index.html"
      "checkoutTitle=bar").1 (by decide) (by decide),
   (c4_serializer_is_filter_map
      ⟨"bar", "s", "p", none, none, none, none, none, none⟩
      relativeRefsIntent.parameters "https://host.test/page/index.html"
      "checkoutTitle=bar").2 (by decide) (by decide)⟩

theorem queryEntries_file_passes (a : AndroidIntent) :
    passFilter (JSVal.url a.file) = true := by
  simp only [passFilter, JSVal.toStr, Bool.and_eq_true, decide_eq_true_eq]
  exact ⟨⟨by simp, by simp⟩, URL.toStr_ne_empty a.file⟩

theorem queryEntries_filter_eq (a : AndroidIntent) :
    (a.queryEntries.filter fun kv => passFilter kv.2) =
      ("file", JSVal.url a.file) ::
        ([("mode", JSVal.str "ar_only"),
          ("link", optVal JSVal.str a.parameters.link),
          ("title", JSVal.str (encodeURIComponent a.parameters.title)),
          ("resizable", optVal JSVal.bool a.parameters.resizable)].filter
            fun kv => passFilter kv.2) := by
  show (("file", JSVal.url a.file) ::
      [("mode", JSVal.str "ar_only"),
       ("link", optVal JSVal.str a.parameters.link),
       ("title", JSVal.str (encodeURIComponent a.parameters.title)),
       ("resizable", optVal JSVal.bool a.parameters.resizable)]).filter
        (fun kv => passFilter kv.2) = _
  rw [List.filter_cons]
  simp [queryEntries_file_passes a]

/-- C10: when the file URL carries no query parameters, the empty
search string is still joined as the first query component, so the
produced intent URI reads `...scene-viewer/1.0?&file=...` — the
character after `?` is `&`. -/
theorem c10_empty_file_query_leading_ampersand (a : AndroidIntent)
    (hq : a.file.query = "") :
    ∃ r, a.toURL =
      "intent://arvr.google.com/scene-viewer/1.0?&file=" ++ r := by
  have hfl := queryEntries_filter_eq a
  obtain ⟨s, hs⟩ := joinSep_cons_exists "&"
    (renderRaw ("file", JSVal.url a.file))
    (([("mode", JSVal.str "ar_only"),
       ("link", optVal JSVal.str a.parameters.link),
       ("title", JSVal.str (encodeURIComponent a.parameters.title)),
       ("resizable", optVal JSVal.bool a.parameters.resizable)].filter
        fun kv => passFilter kv.2).map renderRaw)
  have hps : a.paramString =
      "" ++ "&" ++ (renderRaw ("file", JSVal.url a.file) ++ s) := by
    unfold AndroidIntent.paramString URL.searchParamsStr
    rw [hq, hfl, List.map_cons, joinSep_cons_of_ne_nil "&" "" (by simp), hs]
  refine ⟨a.file.toStr ++ (s ++ ("#" ++ a.hashString)), ?_⟩
  show "intent://arvr.google.com/scene-viewer/1.0" ++ "?" ++ a.paramString
      ++ "#" ++ a.hashString = _
  rw [hps]
  have hlit : ∀ X : String,
      "intent://arvr.google.com/scene-viewer/1.0" ++
        ("?" ++ ("&" ++ ("file" ++ ("=" ++ X)))) =
      "intent://arvr.google.com/scene-viewer/1.0?&file=" ++ X := by
    intro X
    rw [← String.append_assoc, ← String.append_assoc, ← String.append_assoc,
      ← String.append_assoc]
    rfl
  have hrr : renderRaw ("file", JSVal.url a.file) =
      "file" ++ "=" ++ a.file.toStr := rfl
  rw [hrr]
  simp only [String.append_assoc, strEmpty_append]
  exact hlit (a.file.toStr ++ (s ++ ("#" ++ a.hashString)))

/-- Witness for C10: the relative-references intent, whose file URL
`https://example.com/model.gltf` has an empty query. -/
theorem c10_empty_file_query_leading_ampersand_witness :
    ∃ r, relativeRefsIntent.toURL =
      "intent://arvr.google.com/scene-viewer/1.0?&file=" ++ r :=
  c10_empty_file_query_leading_ampersand relativeRefsIntent rfl

theorem paramString_no_hash (a : AndroidIntent)
    (hq0 : '#' ∉ a.file.query.toList)
    (hh : a.file.hash = "")
    (hs2 : '#' ∉ a.file.scheme.toList)
    (hh2 : '#' ∉ a.file.host.toList)
    (hp2 : '#' ∉ a.file.path.toList)
    (hl : ∀ l, a.parameters.link = some l → '#' ∉ l.toList) :
    '#' ∉ a.paramString.toList := by
  intro hmem
  have hmem2 : '#' ∈ (joinSep "&" (a.file.searchParamsStr ::
      (a.queryEntries.filter fun kv => passFilter kv.2).map
        renderRaw)).toList := hmem
  rcases mem_toList_joinSep hmem2 with hsep | ⟨x, hx, hdx⟩
  · exact absurd hsep (by decide)
  rcases List.mem_cons.1 hx with rfl | hx2
  · exact hq0 hdx
  rcases List.mem_map.1 hx2 with ⟨kv, hkv, rfl⟩
  have hkvp : passFilter kv.2 = true := by
    simpa using (List.mem_filter.1 hkv).2
  have hkvm := List.mem_of_mem_filter hkv
  simp only [AndroidIntent.queryEntries, List.mem_cons, List.not_mem_nil,
    or_false] at hkvm
  rcases hkvm with rfl | rfl | rfl | rfl | rfl
  · have hdx2 := hdx
    rw [show renderRaw ("file", JSVal.url a.file) =
        "file" ++ "=" ++ a.file.toStr from rfl,
      strToList_append, strToList_append] at hdx2
    rcases List.mem_append.1 hdx2 with h1 | h2
    · rcases List.mem_append.1 h1 with h3 | h4
      · exact absurd h3 (by decide)
      · exact absurd h4 (by decide)
    rcases URL.mem_toStr_no_hash hh h2 with g1 | g2 | g3 | g4 | g5 | g6
    · exact hs2 g1
    · exact absurd g2 (by decide)
    · exact hh2 g3
    · exact hp2 g4
    · exact absurd g5 (by decide)
    · exact hq0 g6
  · exact absurd hdx (by decide)
  · cases hlo : a.parameters.link with
    | none =>
      rw [hlo] at hkvp
      simp [optVal, passFilter] at hkvp
    | some l =>
      rw [hlo] at hdx
      rw [show renderRaw ("link", optVal JSVal.str (some l)) =
          "link" ++ "=" ++ l from rfl,
        strToList_append, strToList_append] at hdx
      rcases List.mem_append.1 hdx with h1 | h2
      · rcases List.mem_append.1 h1 with h3 | h4
        · exact absurd h3 (by decide)
        · exact absurd h4 (by decide)
      · exact hl l hlo h2
  · have hdx2 := hdx
    rw [show renderRaw ("title",
          JSVal.str (encodeURIComponent a.parameters.title)) =
        "title" ++ "=" ++ encodeURIComponent a.parameters.title from rfl,
      strToList_append, strToList_append] at hdx2
    rcases List.mem_append.1 hdx2 with h1 | h2
    · rcases List.mem_append.1 h1 with h3 | h4
      · exact absurd h3 (by decide)
      · exact absurd h4 (by decide)
    · exact not_mem_encode (by decide) (by decide) (by decide) _ h2
  · cases hro : a.parameters.resizable with
    | none =>
      rw [hro] at hkvp
      simp [optVal, passFilter] at hkvp
    | some b =>
      rw [hro] at hdx
      cases b
      · exact absurd hdx (by decide)
      · exact absurd hdx (by decide)

/-- C2: query parameters already present on the Android file URL are
preserved verbatim in the produced intent URI's query string — they are
joined as its leading components, and parsing the result's query (first
`?` to first `#`, split on `&`) finds `token=foo` for a file URL that
carried `token=foo`. -/
theorem c2_file_query_preserved (a : AndroidIntent)
    (hq : a.file.query = "token=foo")
    (hh : a.file.hash = "")
    (hs2 : '#' ∉ a.file.scheme.toList)
    (hh2 : '#' ∉ a.file.host.toList)
    (hp2 : '#' ∉ a.file.path.toList)
    (hl : ∀ l, a.parameters.link = some l → '#' ∉ l.toList) :
    lookupParam "token" (extractQuery a.toURL) = some "foo" ∧
    ∃ r, extractQuery a.toURL = "token=foo&" ++ r := by
  have hq0 : '#' ∉ a.file.query.toList := by rw [hq]; decide
  have hP : '#' ∉ a.paramString.toList :=
    paramString_no_hash a hq0 hh hs2 hh2 hp2 hl
  have hEx : extractQuery a.toURL = a.paramString := by
    show extractQuery ("intent://arvr.google.com/scene-viewer/1.0" ++ "?" ++
      a.paramString ++ "#" ++ a.hashString) = _
    unfold extractQuery
    rw [strToList_append, strToList_append, strToList_append,
      strToList_append]
    have hshape :
        ("intent://arvr.google.com/scene-viewer/1.0" : String).toList ++
            ("?" : String).toList ++ a.paramString.toList ++
            ("#" : String).toList ++ a.hashString.toList =
          ("intent://arvr.google.com/scene-viewer/1.0" : String).toList ++
            '?' :: (a.paramString.toList ++ '#' :: a.hashString.toList) := by
      rw [List.append_assoc, List.append_assoc, List.append_assoc]
      rfl
    rw [hshape, dropThroughCh_append _ (by decide), dropThroughCh_cons_self,
      takeUntilCh_append _ hP]
    exact strMk_toList _
  have hfl := queryEntries_filter_eq a
  obtain ⟨s, hs⟩ := joinSep_cons_exists "&"
    (renderRaw ("file", JSVal.url a.file))
    (([("mode", JSVal.str "ar_only"),
       ("link", optVal JSVal.str a.parameters.link),
       ("title", JSVal.str (encodeURIComponent a.parameters.title)),
       ("resizable", optVal JSVal.bool a.parameters.resizable)].filter
        fun kv => passFilter kv.2).map renderRaw)
  have hPeq : a.paramString = "token=foo" ++ "&" ++
      (renderRaw ("file", JSVal.url a.file) ++ s) := by
    unfold AndroidIntent.paramString URL.searchParamsStr
    rw [hq, hfl, List.map_cons, joinSep_cons_of_ne_nil "&" _ (by simp), hs]
  constructor
  · rw [hEx, hPeq]
    unfold lookupParam
    rw [strToList_append, strToList_append]
    have hshape2 : ("token=foo" : String).toList ++ ("&" : String).toList ++
        (renderRaw ("file", JSVal.url a.file) ++ s).toList =
        ("token=foo" : String).toList ++
          '&' :: (renderRaw ("file", JSVal.url a.file) ++ s).toList := by
      rw [List.append_assoc]
      rfl
    rw [hshape2, splitOnCh_append _ (by decide),
      List.find?_cons_of_pos _ (by decide)]
    rfl
  · refine ⟨renderRaw ("file", JSVal.url a.file) ++ s, ?_⟩
    rw [hEx, hPeq]
    exact congrArg (· ++ (renderRaw ("file", JSVal.url a.file) ++ s)) rfl

/-- Witness for C2: the intent of the repository's own
query-preservation test, over
`https://example.com/model.gltf?token=foo`. -/
theorem c2_file_query_preserved_witness :
    lookupParam "token" (extractQuery tokenIntent.toURL) = some "foo" ∧
    ∃ r, extractQuery tokenIntent.toURL = "token=foo&" ++ r :=
  c2_file_query_preserved tokenIntent rfl rfl (by decide) (by decide)
    (by decide) (fun l h => Option.noConfusion h)

end ArFeature
